import Mathlib

/-!
Shallow embedding of `src/dlopen.c` from the ecfs repository: the
shared-library classification heuristic (transitive dependency resolution,
loader-API symbol detection, the `.rodata` candidate-string scanner, and the
classifier `mark_dlopen_libs`), together with theorems settling the spec
claims about it.

C byte strings are modelled as `List Char` (one `Char` per byte, `nul` being
the terminator byte `0`). External OS facilities (the shared-object iterator,
`readlink`) are modelled as explicit oracles passed in an environment, since
the C code only observes their results.
-/

set_option autoImplicit false

namespace Ecfs

/-- The NUL byte that terminates C strings. -/
def nul : Char := Char.ofNat 0

/-- A C byte string (no terminating NUL included). -/
abbrev CStr := List Char

/-- `isPrefAt needle hay`: `needle` occurs at the start of `hay`
(byte-by-byte comparison, as the inner loop of `strstr` does). -/
def isPrefAt : CStr → CStr → Bool
  | [], _ => true
  | _ :: _, [] => false
  | a :: as, b :: bs => a == b && isPrefAt as bs

/-- `containsSub needle hay`: model of `strstr(hay, needle) != NULL` —
`needle` occurs contiguously somewhere in `hay`. -/
def containsSub (needle : CStr) : CStr → Bool
  | [] => isPrefAt needle []
  | b :: bs => isPrefAt needle (b :: bs) || containsSub needle bs

/-- The literal `".so"` that `build_rodata_strings` greps for. -/
def soStr : CStr := ".so".toList

/-- Model of `build_rodata_strings` (dlopen.c:47-77): walk the `.rodata`
bytes; non-NUL bytes extend the current run `cur`; on a NUL byte the
finished run is emitted iff it contains `".so"` (the `strstr` test), and the
run buffer restarts.  Bytes left in `cur` when the buffer ends are
discarded, exactly as the C loop never flushes a run not ended by NUL.
The C function returns the emitted strings through `*stra` (plus a count);
the model returns them as a list in emission order, duplicates retained.
The capacity-doubling `realloc` logic does not affect the emitted strings
and is not modelled. -/
def build_rodata_strings : List Char → CStr → List CStr
  | [], _ => []
  | c :: rest, cur =>
    if c == nul then
      if containsSub soStr cur then cur :: build_rodata_strings rest []
      else build_rodata_strings rest []
    else build_rodata_strings rest (cur ++ [c])

/-- Concatenation of NUL-terminated runs: the buffer a list of runs denotes. -/
def joinRuns : List CStr → List Char
  | [] => []
  | r :: rs => r ++ nul :: joinRuns rs

/-- One resolved shared-object dependency (`struct elf_shared_object_node`):
canonical path and basename. -/
structure elf_shared_object_node where
  path : CStr
  basename : CStr
deriving DecidableEq

/-- One step result of the external transitive-dependency iterator
(`elf_iterator_res_t` together with the `entry` it fills in). -/
inductive elf_iterator_res where
  | done
  | error
  | notfound
  | entry (path basename : CStr)

/-- Index of the last occurrence of `/` in a path: model of
`strrchr(path, '/')` (dlopen.c:124), as an index instead of a pointer. -/
def lastSlashPos : CStr → Option Nat
  | [] => none
  | c :: rest =>
    match lastSlashPos rest with
    | some n => some (n + 1)
    | none => if c == '/' then some 0 else none

/-- Processing of one `ELF_ITER_OK` entry inside `resolve_so_deps`
(dlopen.c:117-137).  `rl` is the `readlink` oracle: `some t` models
`readlink(entry.path, buf, PATH_MAX)` returning `r > 0` with target bytes
`t`; `none` models `r <= 0` (not a symlink).  On a symlink, the directory
part of `entry.path` up to and including its last `/` is concatenated with
the link target; a symlink path with no `/` makes the whole resolution fail
(`return false` after `free(so)`).  A non-symlink path is recorded
verbatim. -/
def processEntry (rl : CStr → Option CStr) (p b : CStr) :
    Option elf_shared_object_node :=
  match rl p with
  | some t =>
    match lastSlashPos p with
    | none => none
    | some n => some ⟨p.take (n + 1) ++ t, b⟩
  | none => some ⟨p, b⟩

/-- The iteration loop of `resolve_so_deps` (dlopen.c:95-139) over the
iterator's result stream.  `acc` is `obj->list.needed`; `LIST_INSERT_HEAD`
puts each new node at the head, so the final list is most-recently-discovered
first.  `ELF_ITER_DONE` stops with success, `ELF_ITER_ERROR` aborts with
failure, `ELF_ITER_NOTFOUND` skips the entry, and a failing `processEntry`
aborts with failure.  An exhausted stream is treated as done. -/
def resolveLoop (rl : CStr → Option CStr) :
    List elf_iterator_res → List elf_shared_object_node →
    Option (List elf_shared_object_node)
  | [], acc => some acc
  | .done :: _, acc => some acc
  | .error :: _, _ => none
  | .notfound :: rest, acc => resolveLoop rl rest acc
  | .entry p b :: rest, acc =>
    match processEntry rl p b with
    | none => none
    | some so => resolveLoop rl rest (so :: acc)

/-- A section of the on-disk executable as `dlopen_symbol_found` consumes
it: its name (read via the section-header string table), its raw bytes when
used as a string table (`strdata`), and its `st_name` fields when used as a
symbol table (`syms`, one `Nat` per `ElfW(Sym)` entry, `sh_size /
sizeof(Sym)` many). -/
structure Sect where
  name : CStr
  strdata : CStr
  syms : List Nat

/-- The section name `".dynstr"`. -/
def dynstrName : CStr := ".dynstr".toList

/-- The section name `".dynsym"`. -/
def dynsymName : CStr := ".dynsym".toList

/-- The section-header scan of `dlopen_symbol_found` (dlopen.c:172-181):
walk all sections, recording the `.dynstr` data and the `.dynsym` entries;
a later section of the same name overwrites an earlier one, as the C loop
keeps reassigning `dynstr` / `symtab`. -/
def findSects : List Sect → Option CStr × Option (List Nat) →
    Option CStr × Option (List Nat)
  | [], st => st
  | s :: rest, (d, y) =>
    if s.name == dynstrName then findSects rest (some s.strdata, y)
    else if s.name == dynsymName then findSects rest (d, some s.syms)
    else findSects rest (d, y)

/-- The C string starting at byte offset `off` of string-table bytes `buf`:
model of `&dynstr[st_name]` read up to its NUL terminator. -/
def cstringAt (buf : CStr) (off : Nat) : CStr :=
  (buf.drop off).takeWhile (fun c => c != nul)

/-- The loader-API symbol name `"dlopen"`. -/
def dlopenStr : CStr := "dlopen".toList

/-- The symbol loop of `dlopen_symbol_found` (dlopen.c:188-191): scan the
`st_name` offsets in order; the first whose string in `dynstr` equals
`"dlopen"` returns `true`; none matching returns `false`. -/
def scanSyms (dynstr : CStr) : List Nat → Bool
  | [] => false
  | n :: rest =>
    if cstringAt dynstr n == dlopenStr then true else scanSyms dynstr rest

/-- Model of `dlopen_symbol_found` (dlopen.c:146-193) above the
section-header view of the mapped executable.  If no `.dynsym` section was
found (`symtab == NULL`) the function returns `false` without failing.
Otherwise it scans the symbols against the found `.dynstr`;  when `.dynsym`
exists but `.dynstr` does not, the C reads the uninitialized local `dynstr`,
modelled by the arbitrary `junk` bytes. -/
def dlopen_symbol_found (junk : CStr) (sections : List Sect) : Bool :=
  match findSects sections (none, none) with
  | (_, none) => false
  | (d, some syms) => scanSyms (d.getD junk) syms

/-- One record of `lm_files->libs[]`: a mapped library from the core file's
NT_FILE note, with the two classification flags. -/
structure lib_mapping where
  path : CStr
  injected : Bool
  dlopen : Bool
deriving DecidableEq

/-- Model of `lookup_so_path` (dlopen.c:195-204): is `p` the exact path of
some node of the resolved dependency list (`strcmp == 0`, case-sensitive)? -/
def lookup_so_path (needed : List elf_shared_object_node) (p : CStr) : Bool :=
  needed.any (fun cur => p == cur.path)

/-- The environment a classification run observes: whether
`elf_shared_object_iterator_init` succeeds, the iterator's result stream,
the `readlink` oracle, and the section view of the on-disk executable
(with `junk` for the uninitialized-`dynstr` corner).  I/O failures that
`exit()` the whole process (`xopen`/`xfstat`/`mmap`) are outside the model. -/
structure Env where
  initOk : Bool
  stream : List elf_iterator_res
  rl : CStr → Option CStr
  sections : List Sect
  junk : CStr

/-- Model of `resolve_so_deps` (dlopen.c:83-141): fail if iterator
initialization fails, otherwise run the iteration loop starting from the
empty `LIST_INIT` list. -/
def resolve_so_deps (e : Env) : Option (List elf_shared_object_node) :=
  if e.initOk then resolveLoop e.rl e.stream [] else none

/-- The per-library decision of `mark_dlopen_libs` (dlopen.c:232-240): a
library whose path is found among the resolved dependencies is left
untouched; otherwise `dlopen` is set when the loader symbol was found and
`injected` is set when it was not. -/
def classifyLib (needed : List elf_shared_object_node) (dl : Bool)
    (l : lib_mapping) : lib_mapping :=
  if lookup_so_path needed l.path then l
  else if dl then { l with dlopen := true }
  else { l with injected := true }

/-- Model of `mark_dlopen_libs` (dlopen.c:209-242): resolve the dependency
list (failure aborts before any library record is touched), compute the
loader-symbol boolean once, then rewrite every mapped-library record.  The
result pairs the C return value with the final state of `lm_files->libs`. -/
def mark_dlopen_libs (e : Env) (libs : List lib_mapping) :
    Bool × List lib_mapping :=
  match resolve_so_deps e with
  | none => (false, libs)
  | some needed =>
    (true, libs.map (classifyLib needed (dlopen_symbol_found e.junk e.sections)))

/-!  Byte-level model of the header accesses `dlopen_symbol_found` performs
on the raw mapped file (dlopen.c:167-170), for the bounds-checking claim.
The mapped file is a total function `Nat → Nat`: bytes beyond the mapping
are whatever the address space holds there, which is exactly the hazard of
the unchecked overlay. -/

/-- Little-endian unsigned read of `len` bytes at offset `off` of `mem`. -/
def readLE (mem : Nat → Nat) (off : Nat) : Nat → Nat
  | 0 => 0
  | len + 1 => mem off % 256 + 256 * readLE mem (off + 1) len

/-- The ELF64 `e_shoff` field: 8 bytes at file offset 40. -/
def e_shoff (mem : Nat → Nat) : Nat := readLE mem 40 8

/-- The ELF64 `e_shstrndx` field: 2 bytes at file offset 62. -/
def e_shstrndx (mem : Nat → Nat) : Nat := readLE mem 62 2

/-- File offset of the first section-header field the code dereferences:
`shdr = &mem[ehdr->e_shoff]` followed by `shdr[ehdr->e_shstrndx].sh_offset`
(dlopen.c:168,170) reads 8 bytes at `e_shoff + 64 * e_shstrndx + 24` in
ELF64 layout.  `dlopen_symbol_found` performs this access without ever
comparing any of these offsets against the mapped size `st.st_size`. -/
def shstrtab_shdr_access (mem : Nat → Nat) : Nat :=
  e_shoff mem + 64 * e_shstrndx mem + 24

/-- A 64-byte file that is a bare ELF header whose `e_shoff` field encodes
0x10000 (byte 42 set to 1, all other bytes zero): the section-header table
it advertises lies entirely beyond the end of the file. -/
def memBad : Nat → Nat := fun i => if i = 42 then 1 else 0

/-! Concrete environments used by the witness theorems. -/

/-- An environment whose iterator initialization fails. -/
def envFail : Env := ⟨false, [], fun _ => none, [], []⟩

/-- A `readlink` oracle under which `/a/lm.so` is a symlink to `lm.so.6`
and everything else is a regular file. -/
def rlA : CStr → Option CStr :=
  fun p => if p = "/a/lm.so".toList then some "lm.so.6".toList else none

/-- A `readlink` oracle under which `noslash.so` — a path with no `/` —
is a symlink. -/
def rlNoSlash : CStr → Option CStr :=
  fun p => if p = "noslash.so".toList then some "t.so".toList else none

/-- An environment whose iterator yields one entry whose path is a symlink
containing no `/`. -/
def envNoSlash : Env :=
  ⟨true, [.entry "noslash.so".toList "noslash.so".toList], rlNoSlash, [], []⟩

/-- A section view in which a `.dynsym` entry names `"dlopen"` in
`.dynstr`: the loader-API symbol is present. -/
def sectsDl : List Sect :=
  [⟨".dynstr".toList, "dlopen".toList ++ [nul], []⟩,
   ⟨".dynsym".toList, [], [0]⟩]

/-- Scenario B environment: the executable declares nothing (iterator is
immediately done) and references the loader symbol. -/
def envB : Env := ⟨true, [.done], fun _ => none, sectsDl, []⟩

/-- Scenario C environment: the executable declares nothing and has no
dynamic symbol table at all. -/
def envC : Env := ⟨true, [.done], fun _ => none, [], []⟩

/-- Scenario A environment: the executable transitively declares
`/lib/libfoo.so` (one non-symlink iterator entry) and has no dynamic
symbol table. -/
def envA : Env :=
  ⟨true, [.entry "/lib/libfoo.so".toList "libfoo.so".toList, .done],
   fun _ => none, [], []⟩

/-- Concrete runs for the scanner witness: five NUL-terminated runs, three
of which contain `".so"` (with a duplicate), one of which is empty. -/
def runs0 : List CStr :=
  ["ab".toList, "libc.so".toList, [], "x.so.6".toList, "libc.so".toList]

/-- Concrete trailing bytes (no terminating NUL) for the scanner witness. -/
def tl0 : List Char := "tail".toList

/-! ## Helper lemmas -/

/-- `strrchr(p, '/')` returns NULL exactly when `p` has no `/`. -/
theorem lastSlashPos_eq_none (p : CStr) : lastSlashPos p = none ↔ '/' ∉ p := by
  induction p with
  | nil => simp [lastSlashPos]
  | cons c rest ih =>
    simp only [lastSlashPos, List.mem_cons]
    cases h : lastSlashPos rest with
    | some n =>
      have : '/' ∈ rest := by
        by_contra hc
        rw [← ih] at hc
        rw [h] at hc
        exact Option.noConfusion hc
      simp [this]
    | none =>
      have hrest : '/' ∉ rest := ih.mp h
      by_cases hc : c == '/'
      · have : c = '/' := by exact eq_of_beq hc
        simp [hc, this]
      · have : ¬ ('/' = c) := fun he => hc (by simp [he.symm])
        simp [hc, hrest, this]

/-- `lookup_so_path` succeeds exactly when some resolved node has exactly
the looked-up path. -/
theorem lookup_so_path_iff (needed : List elf_shared_object_node) (p : CStr) :
    lookup_so_path needed p = true ↔ ∃ node ∈ needed, node.path = p := by
  simp only [lookup_so_path, List.any_eq_true, beq_iff_eq]
  constructor
  · rintro ⟨cur, hc, he⟩
    exact ⟨cur, hc, he.symm⟩
  · rintro ⟨node, hn, he⟩
    exact ⟨node, hn, he.symm⟩

/-- On successful resolution `mark_dlopen_libs` reports success and maps
`classifyLib` over the library list. -/
theorem mark_dlopen_libs_eq (e : Env) (libs : List lib_mapping)
    (needed : List elf_shared_object_node)
    (hres : resolve_so_deps e = some needed) :
    mark_dlopen_libs e libs =
      (true, libs.map (classifyLib needed (dlopen_symbol_found e.junk e.sections))) := by
  simp [mark_dlopen_libs, hres]

/-- The symbol loop returns true exactly when some `st_name` offset names
`"dlopen"` in the string table. -/
theorem scanSyms_iff (d : CStr) (syms : List Nat) :
    scanSyms d syms = true ↔ ∃ n ∈ syms, cstringAt d n = dlopenStr := by
  induction syms with
  | nil => simp [scanSyms]
  | cons m rest ih =>
    simp only [scanSyms]
    by_cases h : cstringAt d m == dlopenStr
    · rw [if_pos h]
      have he : cstringAt d m = dlopenStr := eq_of_beq h
      constructor
      · intro _
        exact ⟨m, List.mem_cons_self m rest, he⟩
      · intro _
        rfl
    · rw [if_neg h]
      rw [ih]
      have hne : cstringAt d m ≠ dlopenStr := fun he => h (by simp [he])
      constructor
      · rintro ⟨n, hn, hcs⟩
        exact ⟨n, List.mem_cons_of_mem m hn, hcs⟩
      · rintro ⟨n, hn, hcs⟩
        rcases List.mem_cons.mp hn with rfl | hn2
        · exact absurd hcs hne
        · exact ⟨n, hn2, hcs⟩

/-- `isPrefAt n h` holds exactly when `h` starts with `n`. -/
theorem isPrefAt_iff (n : CStr) : ∀ h : CStr,
    isPrefAt n h = true ↔ ∃ t, h = n ++ t := by
  induction n with
  | nil =>
    intro h
    simp [isPrefAt]
  | cons a as ih =>
    intro h
    cases h with
    | nil =>
      simp [isPrefAt]
    | cons b bs =>
      simp only [isPrefAt, Bool.and_eq_true, beq_iff_eq]
      rw [ih bs]
      constructor
      · rintro ⟨hab, t, ht⟩
        refine ⟨t, ?_⟩
        rw [ht, hab]
        rfl
      · rintro ⟨t, ht⟩
        simp only [List.cons_append, List.cons.injEq] at ht
        exact ⟨ht.1.symm, t, ht.2⟩

/-- `containsSub n h` holds exactly when `n` occurs contiguously in `h`. -/
theorem containsSub_iff (n : CStr) : ∀ h : CStr,
    containsSub n h = true ↔ ∃ pre post, h = pre ++ n ++ post := by
  intro h
  induction h with
  | nil =>
    show isPrefAt n [] = true ↔ _
    rw [isPrefAt_iff]
    constructor
    · rintro ⟨t, ht⟩
      exact ⟨[], t, by simpa using ht⟩
    · rintro ⟨pre, post, hp⟩
      have hp2 : (pre ++ n) ++ post = [] := hp.symm
      rcases List.append_eq_nil.mp hp2 with ⟨h1, h4⟩
      rcases List.append_eq_nil.mp h1 with ⟨h3, h5⟩
      exact ⟨post, by simp [h5, h4]⟩
  | cons b bs ih =>
    simp only [containsSub, Bool.or_eq_true]
    rw [isPrefAt_iff, ih]
    constructor
    · rintro (⟨t, ht⟩ | ⟨pre, post, hp⟩)
      · exact ⟨[], t, by simpa using ht⟩
      · refine ⟨b :: pre, post, ?_⟩
        rw [hp]
        rfl
    · rintro ⟨pre, post, hp⟩
      cases pre with
      | nil =>
        left
        exact ⟨post, by simpa using hp⟩
      | cons c cs =>
        right
        simp only [List.cons_append, List.cons.injEq] at hp
        exact ⟨cs, post, hp.2⟩

/-- Scanning a NUL-free run extends the current run buffer without
emitting anything. -/
theorem build_append_run (run : List Char) (l : List Char) (cur : CStr)
    (h : nul ∉ run) :
    build_rodata_strings (run ++ l) cur = build_rodata_strings l (cur ++ run) := by
  induction run generalizing cur with
  | nil => simp
  | cons c rs ih =>
    have hcn : c ≠ nul := fun he => h (by rw [he]; exact List.mem_cons_self nul rs)
    have hc : ¬ ((c == nul) = true) := by simpa using hcn
    have hrs : nul ∉ rs := fun hm => h (List.mem_cons_of_mem c hm)
    simp only [List.cons_append, build_rodata_strings]
    rw [if_neg hc, List.append_eq, ih (cur ++ [c]) hrs]
    simp [List.append_assoc]

/-- Hitting a NUL byte emits the current run exactly when it contains
`".so"`, then restarts the run buffer. -/
theorem build_cons_nul (l : List Char) (cur : CStr) :
    build_rodata_strings (nul :: l) cur =
      if containsSub soStr cur then cur :: build_rodata_strings l []
      else build_rodata_strings l [] := by
  simp [build_rodata_strings]

/-- The scanner on a buffer of NUL-terminated runs followed by trailing
NUL-free bytes emits exactly the runs containing `".so"`, in order. -/
theorem build_joinRuns (runs : List CStr) (tl : List Char)
    (hr : ∀ r ∈ runs, nul ∉ r) (ht : nul ∉ tl) :
    build_rodata_strings (joinRuns runs ++ tl) [] =
      runs.filter (fun r => containsSub soStr r) := by
  induction runs with
  | nil =>
    have := build_append_run tl [] [] ht
    simpa [joinRuns] using this
  | cons r rs ih =>
    have hrr : nul ∉ r := hr r (List.mem_cons_self r rs)
    have hrs : ∀ x ∈ rs, nul ∉ x := fun x hx => hr x (List.mem_cons_of_mem r hx)
    have hstep : build_rodata_strings (joinRuns (r :: rs) ++ tl) [] =
        build_rodata_strings (nul :: (joinRuns rs ++ tl)) r := by
      show build_rodata_strings ((r ++ nul :: joinRuns rs) ++ tl) [] = _
      rw [List.append_assoc, List.cons_append, build_append_run r _ [] hrr]
      simp
    rw [hstep, build_cons_nul]
    cases hc : containsSub soStr r with
    | true => simp [List.filter_cons, hc, ih hrs]
    | false => simp [List.filter_cons, hc, ih hrs]

/-! ## Claim theorems -/

/-- C1: after a successful classification run, a mapped library whose path
is not among the resolved dependency paths (exact, case-sensitive lookup)
has its `dlopen` flag set when the loader-API symbol was found in the
executable, and its `injected` flag set when it was not. -/
theorem claim1_unexplained_classified (e : Env) (libs : List lib_mapping)
    (needed : List elf_shared_object_node) (i : Nat) (l : lib_mapping)
    (hres : resolve_so_deps e = some needed)
    (hl : libs[i]? = some l)
    (hm : lookup_so_path needed l.path = false) :
    (mark_dlopen_libs e libs).1 = true ∧
    ∃ l2 : lib_mapping, (mark_dlopen_libs e libs).2[i]? = some l2 ∧
      (dlopen_symbol_found e.junk e.sections = true → l2.dlopen = true) ∧
      (dlopen_symbol_found e.junk e.sections = false → l2.injected = true) := by
  rw [mark_dlopen_libs_eq e libs needed hres]
  refine ⟨rfl, classifyLib needed (dlopen_symbol_found e.junk e.sections) l, ?_, ?_, ?_⟩
  · simp [hl]
  · intro hdl
    simp [classifyLib, hm, hdl]
  · intro hdl
    simp [classifyLib, hm, hdl]

/-- Witness for C1, scenario B then scenario C: `libevil.so` is mapped but
not a dependency; with the loader symbol present it is marked `dlopen`,
and with no dynamic symbol table it is marked `injected`. -/
theorem claim1_witness :
    (resolve_so_deps envB = some [] ∧
     [(⟨"libevil.so".toList, false, false⟩ : lib_mapping)][0]? =
       some ⟨"libevil.so".toList, false, false⟩ ∧
     lookup_so_path [] "libevil.so".toList = false ∧
     dlopen_symbol_found envB.junk envB.sections = true ∧
     ((mark_dlopen_libs envB [⟨"libevil.so".toList, false, false⟩]).1 = true ∧
      ∃ l2 : lib_mapping,
        (mark_dlopen_libs envB [⟨"libevil.so".toList, false, false⟩]).2[0]? = some l2 ∧
        (dlopen_symbol_found envB.junk envB.sections = true → l2.dlopen = true) ∧
        (dlopen_symbol_found envB.junk envB.sections = false → l2.injected = true))) ∧
    (dlopen_symbol_found envC.junk envC.sections = false ∧
     ((mark_dlopen_libs envC [⟨"libevil.so".toList, false, false⟩]).1 = true ∧
      ∃ l2 : lib_mapping,
        (mark_dlopen_libs envC [⟨"libevil.so".toList, false, false⟩]).2[0]? = some l2 ∧
        (dlopen_symbol_found envC.junk envC.sections = true → l2.dlopen = true) ∧
        (dlopen_symbol_found envC.junk envC.sections = false → l2.injected = true))) :=
  ⟨⟨rfl, rfl, rfl, by decide,
    claim1_unexplained_classified envB [⟨"libevil.so".toList, false, false⟩] [] 0
      ⟨"libevil.so".toList, false, false⟩ rfl rfl rfl⟩,
   ⟨rfl,
    claim1_unexplained_classified envC [⟨"libevil.so".toList, false, false⟩] [] 0
      ⟨"libevil.so".toList, false, false⟩ rfl rfl rfl⟩⟩

/-- C2: starting from the initial flag state `{false, false}`, after a
successful classification run no mapped-library record has both `injected`
and `dlopen` set: each record ends explained `{false, false}`, dlopen-only,
or injected-only. -/
theorem claim2_never_both_flags (e : Env) (libs : List lib_mapping)
    (hinit : ∀ l ∈ libs, l.injected = false ∧ l.dlopen = false)
    (hrun : (mark_dlopen_libs e libs).1 = true) :
    ∀ l2 ∈ (mark_dlopen_libs e libs).2,
      ¬(l2.injected = true ∧ l2.dlopen = true) := by
  cases hres : resolve_so_deps e with
  | none => simp [mark_dlopen_libs, hres] at hrun
  | some needed =>
    rw [mark_dlopen_libs_eq e libs needed hres]
    intro l2 hl2
    rcases List.mem_map.mp hl2 with ⟨l, hl, hcl⟩
    rcases hinit l hl with ⟨hil, hdl⟩
    rintro ⟨h1, h2⟩
    unfold classifyLib at hcl
    by_cases hm : lookup_so_path needed l.path
    · rw [if_pos hm] at hcl
      rw [← hcl] at h1
      rw [h1] at hil
      exact Bool.noConfusion hil
    · rw [if_neg hm] at hcl
      by_cases hdlo : dlopen_symbol_found e.junk e.sections
      · rw [if_pos hdlo] at hcl
        rw [← hcl] at h1
        simp at h1
        rw [h1] at hil
        exact Bool.noConfusion hil
      · rw [if_neg hdlo] at hcl
        rw [← hcl] at h2
        simp at h2
        rw [h2] at hdl
        exact Bool.noConfusion hdl

/-- Witness for C2: scenario B's run on a two-element list (one explained,
one not) leaves no record with both flags set. -/
theorem claim2_witness :
    (∀ l ∈ [(⟨"libevil.so".toList, false, false⟩ : lib_mapping)],
       l.injected = false ∧ l.dlopen = false) ∧
    (mark_dlopen_libs envB [⟨"libevil.so".toList, false, false⟩]).1 = true ∧
    ∀ l2 ∈ (mark_dlopen_libs envB [⟨"libevil.so".toList, false, false⟩]).2,
      ¬(l2.injected = true ∧ l2.dlopen = true) :=
  ⟨by decide, rfl,
   claim2_never_both_flags envB [⟨"libevil.so".toList, false, false⟩]
     (by decide) rfl⟩

/-- C3: a mapped library whose path exactly equals the path of some
resolved dependency node is left completely unchanged by a successful run
— the record in the output is the very same record — and, starting from
the initial state `{false, false}`, it ends with `injected = false` and
`dlopen = false`. -/
theorem claim3_explained_untouched (e : Env) (libs : List lib_mapping)
    (needed : List elf_shared_object_node) (i : Nat) (l : lib_mapping)
    (hres : resolve_so_deps e = some needed)
    (hl : libs[i]? = some l)
    (hmem : ∃ node ∈ needed, node.path = l.path)
    (hinj : l.injected = false) (hdl : l.dlopen = false) :
    (mark_dlopen_libs e libs).1 = true ∧
    (mark_dlopen_libs e libs).2[i]? = some l ∧
    l.injected = false ∧ l.dlopen = false := by
  have hm : lookup_so_path needed l.path = true :=
    (lookup_so_path_iff needed l.path).mpr hmem
  rw [mark_dlopen_libs_eq e libs needed hres]
  refine ⟨rfl, ?_, hinj, hdl⟩
  simp [hl, classifyLib, hm]

/-- Witness for C3, scenario A: `/lib/libfoo.so` is a resolved dependency
and is mapped; its record survives classification unchanged as
`{false, false}`. -/
theorem claim3_witness :
    resolve_so_deps envA = some [⟨"/lib/libfoo.so".toList, "libfoo.so".toList⟩] ∧
    [(⟨"/lib/libfoo.so".toList, false, false⟩ : lib_mapping)][0]? =
      some ⟨"/lib/libfoo.so".toList, false, false⟩ ∧
    (∃ node ∈ [(⟨"/lib/libfoo.so".toList, "libfoo.so".toList⟩ :
        elf_shared_object_node)], node.path = "/lib/libfoo.so".toList) ∧
    ((mark_dlopen_libs envA [⟨"/lib/libfoo.so".toList, false, false⟩]).1 = true ∧
     (mark_dlopen_libs envA [⟨"/lib/libfoo.so".toList, false, false⟩]).2[0]? =
       some ⟨"/lib/libfoo.so".toList, false, false⟩ ∧
     (⟨"/lib/libfoo.so".toList, false, false⟩ : lib_mapping).injected = false ∧
     (⟨"/lib/libfoo.so".toList, false, false⟩ : lib_mapping).dlopen = false) :=
  ⟨by decide, rfl, ⟨⟨"/lib/libfoo.so".toList, "libfoo.so".toList⟩, by decide⟩,
   claim3_explained_untouched envA [⟨"/lib/libfoo.so".toList, false, false⟩]
     [⟨"/lib/libfoo.so".toList, "libfoo.so".toList⟩] 0
     ⟨"/lib/libfoo.so".toList, false, false⟩ (by decide) rfl
     ⟨⟨"/lib/libfoo.so".toList, "libfoo.so".toList⟩, by decide⟩ rfl rfl⟩

/-- C5: the claim requires every file offset used while parsing the
executable to be validated against the mapped length before access, with
out-of-range offsets reported as a fatal format failure.  The code performs
no such validation: on this concrete 64-byte file (a bare ELF header
advertising `e_shoff = 0x10000`), the very first section-header field read,
`shdr[e_shstrndx].sh_offset`, lies at file offset 65560, far beyond the
64-byte mapping, and `dlopen_symbol_found` computes and dereferences that
address unconditionally (dlopen.c:167-170 have no bounds comparison and no
failure path). -/
theorem claim5_unchecked_shoff_access :
    e_shoff memBad = 65536 ∧ e_shstrndx memBad = 0 ∧
    shstrtab_shdr_access memBad = 65560 ∧ 64 ≤ shstrtab_shdr_access memBad := by
  refine ⟨?_, ?_, ?_, ?_⟩ <;> decide

/-- C6: an iterator entry whose on-disk path is a symlink (readlink
succeeds with target `t`) is recorded with path = (directory part of the
entry path, up to and including its last `/`) ++ `t`, not the symlink's own
path; an entry whose path is not a symlink is recorded verbatim.  Recording
is head insertion into the accumulated list. -/
theorem claim6_symlink_canonicalization (rl : CStr → Option CStr)
    (p q b t : CStr) (n : Nat) (rest : List elf_iterator_res)
    (acc : List elf_shared_object_node) :
    (rl p = some t → lastSlashPos p = some n →
      resolveLoop rl (.entry p b :: rest) acc =
        resolveLoop rl rest (⟨p.take (n + 1) ++ t, b⟩ :: acc)) ∧
    (rl q = none →
      resolveLoop rl (.entry q b :: rest) acc =
        resolveLoop rl rest (⟨q, b⟩ :: acc)) := by
  constructor
  · intro h1 h2
    simp [resolveLoop, processEntry, h1, h2]
  · intro h1
    simp [resolveLoop, processEntry, h1]

/-- Witness for C6 at a concrete symlinked entry `/a/lm.so → lm.so.6`
(directory part `/a/`, taken as the first 3 characters since the last `/`
is at index 2) and a concrete non-symlink entry `/b/x.so`. -/
theorem claim6_witness :
    rlA "/a/lm.so".toList = some "lm.so.6".toList ∧
    lastSlashPos "/a/lm.so".toList = some 2 ∧
    rlA "/b/x.so".toList = none ∧
    resolveLoop rlA [.entry "/a/lm.so".toList "lm.so".toList] [] =
      resolveLoop rlA []
        (⟨("/a/lm.so".toList).take 3 ++ "lm.so.6".toList, "lm.so".toList⟩ :: []) ∧
    resolveLoop rlA [.entry "/b/x.so".toList "x.so".toList] [] =
      resolveLoop rlA [] (⟨"/b/x.so".toList, "x.so".toList⟩ :: []) :=
  ⟨by decide, by decide, by decide,
   (claim6_symlink_canonicalization rlA "/a/lm.so".toList "/b/x.so".toList
      "lm.so".toList "lm.so.6".toList 2 [] []).1 (by decide) (by decide),
   (claim6_symlink_canonicalization rlA "/a/lm.so".toList "/b/x.so".toList
      "x.so".toList "lm.so.6".toList 2 [] []).2 (by decide)⟩

/-- C7: when dependency resolution fails — the iterator fails to
initialize, or resolution aborts with an error — `mark_dlopen_libs`
reports failure and the mapped-library list is returned exactly as it was:
no record is mutated. -/
theorem claim7_failure_is_atomic (e : Env) (libs : List lib_mapping) :
    (e.initOk = false → mark_dlopen_libs e libs = (false, libs)) ∧
    (resolve_so_deps e = none → mark_dlopen_libs e libs = (false, libs)) := by
  constructor
  · intro h
    simp [mark_dlopen_libs, resolve_so_deps, h]
  · intro h
    simp [mark_dlopen_libs, h]

/-- Witness for C7: a run whose iterator initialization fails leaves a
concrete one-element mapped-library list untouched and reports failure. -/
theorem claim7_witness :
    envFail.initOk = false ∧
    mark_dlopen_libs envFail [⟨"libfoo.so".toList, false, false⟩] =
      (false, [⟨"libfoo.so".toList, false, false⟩]) :=
  ⟨rfl, (claim7_failure_is_atomic envFail [⟨"libfoo.so".toList, false, false⟩]).1 rfl⟩

/-- C8: a `not-found` iterator result is non-fatal — the entry is skipped,
no node is added, and iteration continues on the rest of the stream with
the accumulated list unchanged — whereas an `error` result aborts the whole
resolution with failure. -/
theorem claim8_notfound_skips_error_aborts (rl : CStr → Option CStr)
    (rest : List elf_iterator_res) (acc : List elf_shared_object_node) :
    resolveLoop rl (.notfound :: rest) acc = resolveLoop rl rest acc ∧
    resolveLoop rl (.error :: rest) acc = none :=
  ⟨rfl, rfl⟩

/-- C10: an entry whose path is a symlink (readlink succeeds) but contains
no `/` makes `strrchr` return NULL, upon which `resolve_so_deps` returns
false: resolution aborts and the whole run fails, leaving the
mapped-library list untouched. -/
theorem claim10_symlink_without_slash_fails (e : Env) (p b t : CStr)
    (rest : List elf_iterator_res) (acc : List elf_shared_object_node)
    (libs : List lib_mapping)
    (hlink : e.rl p = some t) (hslash : '/' ∉ p)
    (hstream : e.stream = .entry p b :: rest) :
    resolveLoop e.rl e.stream acc = none ∧
    mark_dlopen_libs e libs = (false, libs) := by
  have hpos : lastSlashPos p = none := (lastSlashPos_eq_none p).mpr hslash
  have hloop : ∀ acc2 : List elf_shared_object_node,
      resolveLoop e.rl e.stream acc2 = none := by
    intro acc2
    rw [hstream]
    simp [resolveLoop, processEntry, hlink, hpos]
  refine ⟨hloop acc, ?_⟩
  have hres : resolve_so_deps e = none := by
    unfold resolve_so_deps
    cases h : e.initOk with
    | false => simp
    | true => simp [hloop []]
  simp [mark_dlopen_libs, hres]

/-- Witness for C10: the concrete environment whose single entry
`noslash.so` is a symlink to `t.so`; the run fails and a concrete
mapped-library list is left untouched. -/
theorem claim10_witness :
    envNoSlash.rl "noslash.so".toList = some "t.so".toList ∧
    ('/' ∉ ("noslash.so".toList : CStr)) ∧
    resolveLoop envNoSlash.rl envNoSlash.stream [] = none ∧
    mark_dlopen_libs envNoSlash [⟨"libz.so".toList, false, false⟩] =
      (false, [⟨"libz.so".toList, false, false⟩]) := by
  have h := claim10_symlink_without_slash_fails envNoSlash "noslash.so".toList
    "noslash.so".toList "t.so".toList [] [] [⟨"libz.so".toList, false, false⟩]
    (by decide) (by decide) rfl
  exact ⟨by decide, by decide, h.1, h.2⟩

/-- C4: the symbol presence detector returns true exactly when the found
dynamic symbol table has an entry whose name in the found dynamic string
table is exactly `"dlopen"`; when no dynamic symbol table section exists it
returns false rather than failing; and the first exact match short-circuits
the symbol scan with true, whatever follows.  The hypothesis `hwf` excludes
executables with a `.dynsym` but no `.dynstr` section, on which the C reads
an uninitialized pointer. -/
theorem claim4_symbol_detector (junk : CStr) (sections : List Sect)
    (hwf : ((findSects sections (none, none)).2).isSome = true →
           ((findSects sections (none, none)).1).isSome = true) :
    (dlopen_symbol_found junk sections = true ↔
      ∃ d syms, findSects sections (none, none) = (some d, some syms) ∧
        ∃ n ∈ syms, cstringAt d n = dlopenStr) ∧
    ((findSects sections (none, none)).2 = none →
      dlopen_symbol_found junk sections = false) ∧
    (∀ d : CStr, ∀ n : Nat, ∀ rest : List Nat,
      cstringAt d n = dlopenStr → scanSyms d (n :: rest) = true) := by
  rcases hfs : findSects sections (none, none) with ⟨d, y⟩
  refine ⟨?_, ?_, ?_⟩
  · cases y with
    | none =>
      have hfalse : dlopen_symbol_found junk sections = false := by
        unfold dlopen_symbol_found
        rw [hfs]
      rw [hfalse]
      constructor
      · intro h
        exact Bool.noConfusion h
      · rintro ⟨d2, syms, heq, _⟩
        simp at heq
    | some syms =>
      rw [hfs] at hwf
      have hd : d.isSome = true := hwf rfl
      cases d with
      | none => exact absurd hd (by simp)
      | some d0 =>
        have hval : dlopen_symbol_found junk sections = scanSyms d0 syms := by
          unfold dlopen_symbol_found
          rw [hfs]
          rfl
        rw [hval, scanSyms_iff]
        constructor
        · intro h
          exact ⟨d0, syms, rfl, h⟩
        · rintro ⟨d2, s2, heq, n, hn, hc⟩
          simp only [Prod.mk.injEq, Option.some.injEq] at heq
          rcases heq with ⟨h1, h2⟩
          subst h1
          subst h2
          exact ⟨n, hn, hc⟩
  · intro h2
    have hy : y = none := by simpa using h2
    subst hy
    unfold dlopen_symbol_found
    rw [hfs]
  · intro d2 n rest h
    simp [scanSyms, h]

/-- Witness for C4 at the concrete section view `sectsDl` (a `.dynstr`
holding `"dlopen"` at offset 0 and a one-entry `.dynsym` naming it). -/
theorem claim4_witness :
    (((findSects sectsDl (none, none)).2).isSome = true →
      ((findSects sectsDl (none, none)).1).isSome = true) ∧
    ((dlopen_symbol_found [] sectsDl = true ↔
       ∃ d syms, findSects sectsDl (none, none) = (some d, some syms) ∧
         ∃ n ∈ syms, cstringAt d n = dlopenStr) ∧
     ((findSects sectsDl (none, none)).2 = none →
       dlopen_symbol_found [] sectsDl = false) ∧
     (∀ d : CStr, ∀ n : Nat, ∀ rest : List Nat,
       cstringAt d n = dlopenStr → scanSyms d (n :: rest) = true)) :=
  ⟨by decide, claim4_symbol_detector [] sectsDl (by decide)⟩

/-- C9: on a buffer made of NUL-terminated runs (none containing an
interior NUL) followed by trailing non-NUL bytes, the scanner emits exactly
the runs that contain the substring `".so"`, in scan order, duplicates
retained; and containing `".so"` in the code's `strstr` sense is exactly
containing it as a contiguous substring. -/
theorem claim9_scanner (runs : List CStr) (tl : List Char)
    (hr : ∀ r ∈ runs, nul ∉ r) (ht : nul ∉ tl) :
    build_rodata_strings (joinRuns runs ++ tl) [] =
      runs.filter (fun r => containsSub soStr r) ∧
    ∀ r : CStr, containsSub soStr r = true ↔ ∃ pre post, r = pre ++ soStr ++ post :=
  ⟨build_joinRuns runs tl hr ht, fun r => containsSub_iff soStr r⟩

/-- Witness for C9 at a concrete buffer of five runs, three of which
contain `".so"` (one duplicated), plus trailing unterminated bytes. -/
theorem claim9_witness :
    (∀ r ∈ runs0, nul ∉ r) ∧ nul ∉ tl0 ∧
    (build_rodata_strings (joinRuns runs0 ++ tl0) [] =
       runs0.filter (fun r => containsSub soStr r) ∧
     ∀ r : CStr, containsSub soStr r = true ↔
       ∃ pre post, r = pre ++ soStr ++ post) :=
  ⟨by decide, by decide, claim9_scanner runs0 tl0 (by decide) (by decide)⟩

end Ecfs
